import Mathlib

/-!
Verification of the dual-source audio capture engine
(`src-native/src/macos/audio.rs`, `src-native/src/audio.rs`,
`src-native/src/lib.rs`).

Modelling conventions, chosen to mirror the Rust source line by line:
* `f32`/`f64` sample arithmetic is embedded in `ℚ` (exact rationals);
  floating-point rounding error is idealized away, but special cases of
  the Rust casts that the control flow depends on (`as usize` saturation
  on an infinite ratio, truncation toward zero of `as i16`/`as usize`)
  are modelled explicitly.
* byte buffers are `List ℕ` (each element one byte); IEEE-754 binary32
  little-endian decoding (`f32::from_le_bytes`) is embedded exactly,
  except that an Inf/NaN bit pattern decodes to `0` (no rational value).
* the microphone archival buffer `MIC_AUDIO_DATA` (which the Rust code
  fills with the 4 little-endian bytes of each `f32` sample and later
  decodes back with `chunks_exact(4)`) is modelled at sample granularity
  as a `List ℚ`: encode-then-decode of a finite `f32` is the identity.
* the global mutable engine state (atomics, `Mutex` buffers) becomes an
  explicit `EngineState` record threaded through the operations; the
  callbacks run their bodies under the locks, so each callback is one
  state transition.
-/

namespace IceCubes

/-- `usize::MAX` on the 64-bit targets the engine runs on; a Rust
`f64 as usize` cast saturates to this value when the float is `+inf`. -/
def USIZE_MAX : ℕ := 2 ^ 64 - 1

/-- `let chunk_size = 1600;` in `build_stereo_chunks` (~100 ms at 16 kHz). -/
def chunkSize : ℕ := 1600

/-- `let target_rate = 16000.0;` in both callback paths. -/
def targetRate : ℚ := 16000

/-- IEEE-754 binary32 value of four little-endian bytes, as
`f32::from_le_bytes([b0, b1, b2, b3])` computes it, embedded in `ℚ`.
An exponent field of 255 (Inf/NaN) has no rational value and is
idealized to `0`; no claim depends on such inputs. -/
def f32FromLeBytes (b0 b1 b2 b3 : ℕ) : ℚ :=
  let bits : ℕ := b0 % 256 + 256 * (b1 % 256) + 65536 * (b2 % 256) + 16777216 * (b3 % 256)
  let sign : ℚ := if bits / 2 ^ 31 % 2 = 1 then -1 else 1
  let expo : ℕ := bits / 2 ^ 23 % 256
  let frac : ℕ := bits % 2 ^ 23
  if expo = 255 then 0
  else if expo = 0 then sign * (frac : ℚ) / 2 ^ 149
  else sign * ((2 ^ 23 + (frac : ℚ)) / 2 ^ 23) * (2 ^ expo : ℚ) / 2 ^ 127

/-- `data.chunks_exact(4).map(|c| f32::from_le_bytes([c[0], c[1], c[2], c[3]]))`:
every complete 4-byte group becomes one sample; a trailing remainder of
fewer than 4 bytes is dropped by `chunks_exact`. -/
def bytesToF32 : List ℕ → List ℚ
  | b0 :: b1 :: b2 :: b3 :: rest => f32FromLeBytes b0 b1 b2 b3 :: bytesToF32 rest
  | _ => []

/-- Rust `x.clamp(-1.0, 1.0)` on a (non-NaN) float. -/
def clampUnit (x : ℚ) : ℚ := min (max x (-1)) 1

/-- Rust float-to-int `as` cast rounds toward zero. -/
def truncTowardZero (q : ℚ) : ℤ := if 0 ≤ q then ⌊q⌋ else ⌈q⌉

/-- `(x.clamp(-1.0, 1.0) * 32767.0) as i16`: the 16-bit quantizer used by
both the chunk builder and the archival encoder. -/
def quantizeI16 (x : ℚ) : ℤ := truncTowardZero (clampUnit x * 32767)

/-- `v.to_le_bytes()` of an `i16` (two's complement, low byte first).
`%` on `ℤ` is Euclidean mod, so `v % 65536` is the 16-bit pattern. -/
def i16ToLeBytes (v : ℤ) : List ℕ :=
  [(v % 65536).toNat % 256, (v % 65536).toNat / 256]

/-- `float_samples.chunks(2).map(|pair| (pair[0] + pair.get(1).unwrap_or(&0.0)) / 2.0)`:
pairwise average; an odd trailing sample is averaged with `0.0`. -/
def pairAvg : List ℚ → List ℚ
  | a :: b :: rest => (a + b) / 2 :: pairAvg rest
  | [a] => [(a + 0) / 2]
  | [] => []

/-- The down-mix step of `on_system_audio` and `create_stereo_wav`:
`if channels == 2 { ...pairwise average... } else { float_samples }`.
Any channel count other than 2 passes the buffer through unchanged. -/
def downmix (channels : ℕ) (xs : List ℚ) : List ℚ :=
  if channels = 2 then pairAvg xs else xs

/-- `let output_len = (mono_samples.len() as f64 * resample_ratio) as usize`.
For `native_rate = 0` the ratio `16000.0 / 0.0` is `+inf`, so the product
is `NaN` (length 0, cast to 0) or `+inf` (cast saturates to `usize::MAX`).
For a nonzero rate the cast truncates the exact product toward zero
(negative products saturate to 0, matching `Int.toNat`). -/
def resampleLen (monoLen : ℕ) (nativeRate : ℚ) : ℕ :=
  if nativeRate = 0 then (if monoLen = 0 then 0 else USIZE_MAX)
  else (⌊(monoLen : ℚ) * (targetRate / nativeRate)⌋).toNat

/-- The linear-interpolation resampler shared by `on_system_audio` and the
microphone tap: for each output index `i`, `src_pos = i / resample_ratio`,
`src_idx = src_pos as usize`, `frac = src_pos - src_idx`, sample
`s0 + (s1 - s0) * frac` with `s0 = mono[src_idx]` (0.0 out of range) and
`s1 = mono[src_idx + 1]` (defaulting to `s0`). -/
def resample (mono : List ℚ) (nativeRate : ℚ) : List ℚ :=
  (List.range (resampleLen mono.length nativeRate)).map (fun (i : ℕ) =>
    let srcPos : ℚ := (i : ℚ) / (targetRate / nativeRate)
    let srcIdx : ℕ := (⌊srcPos⌋).toNat
    let frac : ℚ := srcPos - (srcIdx : ℚ)
    let s0 := mono.getD srcIdx 0
    let s1 := mono.getD (srcIdx + 1) s0
    s0 + (s1 - s0) * frac)

/-- `let left_sample = if i < system.len() { system[i] } else { 0.0 };` -/
def leftSampleAt (system : List ℚ) (i : ℕ) : ℚ :=
  if i < system.length then system.getD i 0 else 0

/-- `let right_sample = if i < mic.len() { mic[i] * 1.5 } else { 0.0 };` -/
def rightSampleAt (mic : List ℚ) (i : ℕ) : ℚ :=
  if i < mic.length then mic.getD i 0 * (3 / 2) else 0

/-- One iteration of the frame loop in `build_stereo_chunks`, before
serialization: frame `i` is the pair of quantized left/right samples. -/
def stereoFrames (system mic : List ℚ) (n : ℕ) : List (ℤ × ℤ) :=
  (List.range n).map (fun i =>
    (quantizeI16 (leftSampleAt system i), quantizeI16 (rightSampleAt mic i)))

/-- Serialization of interleaved stereo frames: each frame appends the two
little-endian bytes of the left sample then of the right sample, exactly
as the `extend_from_slice(&..to_le_bytes())` calls do. -/
def framesToBytes : List (ℤ × ℤ) → List ℕ
  | [] => []
  | (l, r) :: rest => i16ToLeBytes l ++ i16ToLeBytes r ++ framesToBytes rest

/-- The byte buffer `stereo_chunk` built for `samples_to_process = n`. -/
def stereoChunkBytes (system mic : List ℚ) (n : ℕ) : List ℕ :=
  framesToBytes (stereoFrames system mic n)

/-- `if samples_to_process <= buf.len() { buf.drain(..samples_to_process); }
else { buf.clear(); }` -/
def drainBuf (n : ℕ) (buf : List ℚ) : List ℚ :=
  if n ≤ buf.length then buf.drop n else []

/-- The `while system.len() >= chunk_size || mic.len() >= chunk_size` loop
of `build_stereo_chunks`, acting on (system buffer, mic buffer, queue). -/
def buildLoop (system mic : List ℚ) (queue : List (List ℕ)) :
    List ℚ × List ℚ × List (List ℕ) :=
  if h : chunkSize ≤ system.length ∨ chunkSize ≤ mic.length then
    let n := min chunkSize (max system.length mic.length)
    buildLoop (drainBuf n system) (drainBuf n mic)
      (queue ++ [stereoChunkBytes system mic n])
  else (system, mic, queue)
termination_by system.length + mic.length
decreasing_by
  have hmax : chunkSize ≤ max system.length mic.length := by
    rcases h with h | h
    · exact le_trans h (le_max_left _ _)
    · exact le_trans h (le_max_right _ _)
  have hn : min chunkSize (max system.length mic.length) = chunkSize :=
    min_eq_left hmax
  simp only [drainBuf, hn]
  have h1600 : chunkSize = 1600 := rfl
  rw [h1600] at h
  simp only [h1600]
  split <;> split <;> simp only [List.length_drop, List.length_nil] <;> omega

/-- `build_stereo_chunks`: early-returns when both buffers are empty
(skipping only the logging), otherwise runs the drain loop. -/
def buildStereoChunks (system mic : List ℚ) (queue : List (List ℕ)) :
    List ℚ × List ℚ × List (List ℕ) :=
  if system.isEmpty && mic.isEmpty then (system, mic, queue)
  else buildLoop system mic queue

/-- Little-endian bytes of a `u16` value (applied to already-cast values;
`% 256` extracts the bit ranges, so larger inputs wrap as the cast does). -/
def u16le (v : ℕ) : List ℕ := [v % 256, v / 256 % 256]

/-- Little-endian bytes of a `u32` value; bits above 31 are discarded,
exactly as Rust `as u32` + `to_le_bytes` does. -/
def u32le (v : ℕ) : List ℕ :=
  [v % 256, v / 256 % 256, v / 2 ^ 16 % 256, v / 2 ^ 24 % 256]

/-- `WavHeader::write_header` (`src-native/src/audio.rs`): the 44-byte
RIFF/WAVE header for `data_size` bytes of PCM data. Byte values of the
ASCII tags: `RIFF`, `WAVE`, `fmt `, `data`. -/
def writeHeader (sampleRate channels bitsPerSample dataSize : ℕ) : List ℕ :=
  let byteRate := sampleRate * channels * bitsPerSample / 8
  let blockAlign := channels * bitsPerSample / 8
  let fileSize := 36 + dataSize
  [82, 73, 70, 70] ++ u32le fileSize ++ [87, 65, 86, 69] ++
  [102, 109, 116, 32] ++ u32le 16 ++ u16le 1 ++ u16le channels ++
  u32le sampleRate ++ u32le byteRate ++ u16le blockAlign ++
  u16le bitsPerSample ++ [100, 97, 116, 97] ++ u32le dataSize

/-- The frame loop of `create_stereo_wav`: `max_len` interleaved frames,
left = system mono sample (0.0 past the end), right = mic sample (0.0
past the end) boosted by 1.5, each clamped and quantized. -/
def wavFrames (systemMono micSamples : List ℚ) : List (ℤ × ℤ) :=
  (List.range (max systemMono.length micSamples.length)).map (fun i =>
    (quantizeI16 (systemMono.getD i 0),
     quantizeI16 (micSamples.getD i 0 * (3 / 2))))

/-- `create_stereo_wav(system_data, mic_data, system_channels)`: decodes
the system archival bytes to `f32` samples, pairwise-averages them only
when `system_channels == 2`, and serializes the interleaved stereo
frames. The mic archival buffer is modelled at sample granularity (the
Rust code stores and re-decodes the 4 LE bytes of each `f32`). -/
def createStereoWav (systemData : List ℕ) (micSamples : List ℚ)
    (systemChannels : ℕ) : List ℕ :=
  framesToBytes (wavFrames (downmix systemChannels (bytesToF32 systemData)) micSamples)

/-- `write_wav(path, pcm, rate, 2)` as called from `stop_capture`: the
bytes written to the container file are the header for `pcm.len()` data
bytes followed by the PCM data itself. -/
def wavFileBytes (pcm : List ℕ) (rate : ℕ) : List ℕ :=
  writeHeader rate 2 16 pcm.length ++ pcm

/-- The engine's global mutable state (`static` items of
`macos/audio.rs`) gathered into one record:
`CURRENT_LEVEL`, `SAMPLE_RATE`, `CHANNELS`, `IS_CAPTURING`,
`SYSTEM_AUDIO_DATA`, `MIC_AUDIO_DATA`, `SYSTEM_BUFFER`, `MIC_BUFFER`,
`AUDIO_CHUNK_QUEUE`, `SYSTEM_CALLBACK_COUNT`, `MIC_CALLBACK_COUNT`. -/
structure EngineState where
  level : ℝ
  sampleRate : ℕ
  channels : ℕ
  capturing : Bool
  systemData : List ℕ
  micData : List ℚ
  systemBuffer : List ℚ
  micBuffer : List ℚ
  chunkQueue : List (List ℕ)
  sysCallbackCount : ℕ
  micCallbackCount : ℕ

/-- `calc_level`: RMS of the decoded `f32` samples, scaled by 2 and
clamped to at most 1 (`.min(1.0)`); inputs shorter than one sample give
`0.0`. Needs `ℝ` for the square root, hence noncomputable. -/
noncomputable def calcLevel (data : List ℕ) : ℝ :=
  if data.length < 4 then 0
  else
    let samples := bytesToF32 data
    if samples.isEmpty then 0
    else
      let sq : ℝ := ((samples.map (fun s => ((s : ℝ)) ^ 2)).sum)
      min (Real.sqrt (sq / samples.length) * 2) 1

/-- The realtime-path transform of `on_system_audio` (lines 249–282):
decode the delivered bytes as `f32` samples (`chunks_exact(4)`), mix
stereo to mono, resample to 16 kHz. -/
def systemRealtimeSamples (data : List ℕ) (channels rate : ℕ) : List ℚ :=
  resample (downmix channels (bytesToF32 data)) (rate : ℚ)

/-- `get_audio_chunks`: drains the queue, returning all queued chunks and
leaving the queue empty. -/
def getAudioChunks (queue : List (List ℕ)) : List (List ℕ) × List (List ℕ) :=
  (queue, [])

/-- `has_audio_chunks`. -/
def hasAudioChunks (queue : List (List ℕ)) : Bool := !queue.isEmpty

/-- The buffer-clearing prefix of `start_capture`: clears both archival
buffers, both realtime buffers and the chunk queue, resets the system
callback counter and sets `IS_CAPTURING` to true. -/
def startCaptureEngine (st : EngineState) : EngineState :=
  { st with
    systemData := [], micData := [], systemBuffer := [], micBuffer := [],
    chunkQueue := [], sysCallbackCount := 0, capturing := true }

/-- `on_system_audio` (lines 216–297): ignores empty deliveries, records
the delivered format in `SAMPLE_RATE`/`CHANNELS`, always updates
`CURRENT_LEVEL`, and only when `IS_CAPTURING` appends the raw bytes to
the system archival buffer, down-mixes/resamples into the system
realtime buffer, and every 5th callback runs the chunk builder. -/
noncomputable def onSystemAudio (st : EngineState) (data : List ℕ)
    (rate channels : ℕ) : EngineState :=
  if data.length = 0 then st
  else
    let st1 := { st with sampleRate := rate, channels := channels,
                         level := calcLevel data }
    if st1.capturing then
      let resampled := systemRealtimeSamples data st1.channels st1.sampleRate
      let st2 := { st1 with
        systemData := st1.systemData ++ data,
        systemBuffer := st1.systemBuffer ++ resampled,
        sysCallbackCount := st1.sysCallbackCount + 1 }
      if st1.sysCallbackCount % 5 = 0 then
        let r := buildStereoChunks st2.systemBuffer st2.micBuffer st2.chunkQueue
        { st2 with systemBuffer := r.1, micBuffer := r.2.1, chunkQueue := r.2.2 }
      else st2
    else st1

/-- The microphone tap block installed by `start_microphone_capture`
(lines 362–413): returns immediately unless `IS_CAPTURING`; otherwise
appends the delivered samples to the mic archival buffer, resamples into
the mic realtime buffer, and every 5th callback runs the chunk builder. -/
def onMicAudio (st : EngineState) (samples : List ℚ) (micRate : ℚ) : EngineState :=
  if !st.capturing then st
  else if samples.length = 0 then st
  else
    let resampled := resample samples micRate
    let st1 := { st with
      micData := st.micData ++ samples,
      micBuffer := st.micBuffer ++ resampled,
      micCallbackCount := st.micCallbackCount + 1 }
    if st.micCallbackCount % 5 = 0 then
      let r := buildStereoChunks st1.systemBuffer st1.micBuffer st1.chunkQueue
      { st1 with systemBuffer := r.1, micBuffer := r.2.1, chunkQueue := r.2.2 }
    else st1

/-- `stop_capture`: clears `IS_CAPTURING` (backend teardown is external
I/O with no effect on the model state), runs one final chunk-builder
pass, takes both archival buffers (leaving them empty), builds the
stereo WAV data and returns the final state together with the bytes
written to the container file. -/
noncomputable def stopCapture (st : EngineState) : EngineState × List ℕ :=
  let st1 := { st with capturing := false }
  let r := buildStereoChunks st1.systemBuffer st1.micBuffer st1.chunkQueue
  let st2 := { st1 with systemBuffer := r.1, micBuffer := r.2.1, chunkQueue := r.2.2 }
  let systemData := st2.systemData
  let micData := st2.micData
  let stereo := createStereoWav systemData micData st2.channels
  ({ st2 with systemData := [], micData := [] },
   wavFileBytes stereo st2.sampleRate)

/-- The error kinds surfaced by the host-facing layer (`lib.rs` raises
them as `napi` failure values with the messages "Already capturing
audio", "No active capture" / "Not capturing", and start-failure
reasons). -/
inductive CaptureError where
  | alreadyCapturing
  | notCapturing
  | streamCreationFailed
  deriving DecidableEq, Repr

/-- `AudioCaptureState` in `lib.rs`: the engine-level session record kept
in the `AUDIO_ENGINE` global (`start_time` and the stream handle are
irrelevant to the claims and omitted; the handle's path equals
`outputPath`). -/
structure AudioCaptureState where
  isCapturing : Bool
  outputPath : String

/-- `start_audio_capture`: fails fast with "Already capturing audio" when
a session record exists and is capturing; otherwise the backend start is
attempted (its success is the `backendOk` input) and on success a fresh
running session is installed. Returns the resulting `AUDIO_ENGINE`
content alongside the result. -/
def startAudioCapture (st : Option AudioCaptureState) (backendOk : Bool)
    (path : String) : Except CaptureError Unit × Option AudioCaptureState :=
  match st with
  | some s =>
    if s.isCapturing then (Except.error CaptureError.alreadyCapturing, st)
    else startFresh
  | none => startFresh
where
  startFresh : Except CaptureError Unit × Option AudioCaptureState :=
    if backendOk then
      (Except.ok (), some { isCapturing := true, outputPath := path })
    else (Except.error CaptureError.streamCreationFailed, st)

/-- `stop_audio_capture`: `state.take()` empties the global; a missing
session yields the "No active capture" error, a non-capturing record the
"Not capturing" error (both `NotCapturing`-kind), and a running session
stops and returns its output path. -/
def stopAudioCapture (st : Option AudioCaptureState) :
    Except CaptureError String × Option AudioCaptureState :=
  match st with
  | none => (Except.error CaptureError.notCapturing, none)
  | some s =>
    if s.isCapturing then (Except.ok s.outputPath, none)
    else (Except.error CaptureError.notCapturing, none)

/-- Modelled from the spec (§4.1): "If `native_channels > 1`, down-mix to
mono by averaging all channels per frame."  One output sample per
complete frame of `channels` input samples, the average of that frame.
Used only to compare the spec's words against the code's `downmix`. -/
def downmixSpecAvg (channels : ℕ) (xs : List ℚ) : List ℚ :=
  (List.range (xs.length / channels)).map (fun (i : ℕ) =>
    ((xs.drop (channels * i)).take channels).sum / channels)

/-- An engine state holding a sub-window realtime remainder (100 system
samples, an empty mic buffer) at session end. -/
noncomputable def remnantState : EngineState :=
  { level := 0, sampleRate := 48000, channels := 2, capturing := true,
    systemData := [], micData := [], systemBuffer := List.replicate 100 0,
    micBuffer := [], chunkQueue := [], sysCallbackCount := 0,
    micCallbackCount := 0 }

/-- An engine state whose running flag is down, as after `stop()` or
before `start()`. -/
noncomputable def stoppedState : EngineState :=
  { level := 0, sampleRate := 48000, channels := 2, capturing := false,
    systemData := [7], micData := [1], systemBuffer := [1, 2],
    micBuffer := [3], chunkQueue := [[1]], sysCallbackCount := 5,
    micCallbackCount := 5 }

/-! ### Helper lemmas -/

theorem pairAvg_length : ∀ xs : List ℚ, (pairAvg xs).length = (xs.length + 1) / 2
  | [] => rfl
  | [_] => by simp [pairAvg]
  | _ :: _ :: rest => by
    simp only [pairAvg, List.length_cons, pairAvg_length rest]
    omega

theorem pairAvg_getD : ∀ (xs : List ℚ) (i : ℕ),
    (pairAvg xs).getD i 0 = (xs.getD (2 * i) 0 + xs.getD (2 * i + 1) 0) / 2
  | [], i => by simp [pairAvg]
  | [a], 0 => by simp [pairAvg]
  | [a], i + 1 => by
    have e1 : (pairAvg [a]).getD (i + 1) 0 = 0 := by
      apply List.getD_eq_default
      simp only [pairAvg, List.length_cons, List.length_nil]
      omega
    have e2 : ([a] : List ℚ).getD (2 * (i + 1)) 0 = 0 := by
      apply List.getD_eq_default
      simp only [List.length_cons, List.length_nil]
      omega
    have e3 : ([a] : List ℚ).getD (2 * (i + 1) + 1) 0 = 0 := by
      apply List.getD_eq_default
      simp only [List.length_cons, List.length_nil]
      omega
    rw [e1, e2, e3]
    norm_num
  | a :: b :: rest, 0 => by simp [pairAvg]
  | a :: b :: rest, i + 1 => by
    have h2 : 2 * (i + 1) = 2 * i + 1 + 1 := by ring
    have h3 : 2 * (i + 1) + 1 = 2 * i + 1 + 1 + 1 := by ring
    simp only [pairAvg, List.getD_cons_succ, h2, h3]
    exact pairAvg_getD rest i

theorem bytesToF32_length : ∀ l : List ℕ, (bytesToF32 l).length = l.length / 4
  | [] => rfl
  | [_] => by simp [bytesToF32]
  | [_, _] => by simp [bytesToF32]
  | [_, _, _] => by simp [bytesToF32]
  | _ :: _ :: _ :: _ :: rest => by
    simp only [bytesToF32, List.length_cons, bytesToF32_length rest]
    omega

theorem bytesToF32_take : ∀ l : List ℕ,
    bytesToF32 (l.take (4 * (l.length / 4))) = bytesToF32 l
  | [] => rfl
  | [_] => by simp [bytesToF32]
  | [_, _] => by simp [bytesToF32]
  | [_, _, _] => by simp [bytesToF32]
  | b0 :: b1 :: b2 :: b3 :: rest => by
    have h4 : 4 * ((b0 :: b1 :: b2 :: b3 :: rest).length / 4) =
        4 * (rest.length / 4) + 4 := by
      simp only [List.length_cons]; omega
    rw [h4]
    simp only [List.take_succ_cons, bytesToF32]
    rw [bytesToF32_take rest]

theorem framesToBytes_length : ∀ fs : List (ℤ × ℤ), (framesToBytes fs).length = 4 * fs.length
  | [] => rfl
  | (l, r) :: rest => by
    simp only [framesToBytes, List.length_append, List.length_cons,
      List.length_nil, i16ToLeBytes, framesToBytes_length rest]
    omega

theorem stereoFrames_length (s m : List ℚ) (n : ℕ) : (stereoFrames s m n).length = n := by
  simp [stereoFrames]

theorem stereoChunkBytes_length (s m : List ℚ) (n : ℕ) :
    (stereoChunkBytes s m n).length = 4 * n := by
  simp [stereoChunkBytes, framesToBytes_length, stereoFrames_length]

theorem min_chunk_window {a b : ℕ} (h : chunkSize ≤ a ∨ chunkSize ≤ b) :
    min chunkSize (max a b) = chunkSize := by
  rcases h with h | h
  · exact min_eq_left (le_trans h (le_max_left _ _))
  · exact min_eq_left (le_trans h (le_max_right _ _))

theorem drainBuf_length (n : ℕ) (buf : List ℚ) :
    (drainBuf n buf).length = buf.length - n := by
  simp only [drainBuf]
  split <;> simp only [List.length_drop, List.length_nil] <;> omega

theorem buildLoop_step (s m : List ℚ) (q : List (List ℕ))
    (h : chunkSize ≤ s.length ∨ chunkSize ≤ m.length) :
    buildLoop s m q =
      buildLoop (drainBuf (min chunkSize (max s.length m.length)) s)
        (drainBuf (min chunkSize (max s.length m.length)) m)
        (q ++ [stereoChunkBytes s m (min chunkSize (max s.length m.length))]) := by
  rw [buildLoop]
  simp only [dif_pos h]

theorem buildLoop_exit (s m : List ℚ) (q : List (List ℕ))
    (h : ¬(chunkSize ≤ s.length ∨ chunkSize ≤ m.length)) :
    buildLoop s m q = (s, m, q) := by
  rw [buildLoop]
  simp only [dif_neg h]

/-- The drain loop only stops once both realtime buffers hold fewer than
`chunk_size` samples. -/
theorem buildLoop_post (s m : List ℚ) (q : List (List ℕ)) :
    (buildLoop s m q).1.length < chunkSize ∧
      (buildLoop s m q).2.1.length < chunkSize := by
  by_cases h : chunkSize ≤ s.length ∨ chunkSize ≤ m.length
  · rw [buildLoop_step s m q h]
    exact buildLoop_post _ _ _
  · rw [buildLoop_exit s m q h]
    push_neg at h
    exact ⟨h.1, h.2⟩
termination_by s.length + m.length
decreasing_by
  simp only [drainBuf_length, min_chunk_window h]
  have h1600 : chunkSize = 1600 := rfl
  rw [h1600] at h ⊢
  omega

/-- The invariant of claim C6 on the chunk queue. -/
def chunkInv (queue : List (List ℕ)) : Prop :=
  ∀ c ∈ queue, c.length = chunkSize * 4

/-- Every chunk the drain loop appends has exactly `chunk_size * 4` bytes,
so the queue invariant is preserved. -/
theorem buildLoop_chunkInv (s m : List ℚ) (q : List (List ℕ))
    (hq : chunkInv q) : chunkInv (buildLoop s m q).2.2 := by
  by_cases h : chunkSize ≤ s.length ∨ chunkSize ≤ m.length
  · rw [buildLoop_step s m q h]
    refine buildLoop_chunkInv _ _ _ ?_
    intro c hc
    rcases List.mem_append.mp hc with hc | hc
    · exact hq c hc
    · rcases List.mem_singleton.mp hc with rfl
      rw [stereoChunkBytes_length, min_chunk_window h]
      ring
  · rw [buildLoop_exit s m q h]
    exact hq
termination_by s.length + m.length
decreasing_by
  simp only [drainBuf_length, min_chunk_window h]
  have h1600 : chunkSize = 1600 := rfl
  rw [h1600] at h ⊢
  omega

theorem buildStereoChunks_eq_loop (s m : List ℚ) (q : List (List ℕ)) :
    buildStereoChunks s m q = buildLoop s m q := by
  by_cases hs : (s.isEmpty && m.isEmpty) = true
  · rw [Bool.and_eq_true, List.isEmpty_iff, List.isEmpty_iff] at hs
    obtain ⟨rfl, rfl⟩ := hs
    rw [buildStereoChunks, buildLoop_exit]
    · simp
    · simp only [List.length_nil]
      have : chunkSize = 1600 := rfl
      omega
  · simp only [buildStereoChunks, if_neg hs]

theorem clampUnit_mem (x : ℚ) : -1 ≤ clampUnit x ∧ clampUnit x ≤ 1 := by
  unfold clampUnit
  constructor
  · exact le_min (le_max_right x (-1)) (by norm_num)
  · exact min_le_right _ 1

theorem truncTowardZero_bounds {q : ℚ} {a : ℤ} (ha : 0 ≤ a)
    (h1 : -(a : ℚ) ≤ q) (h2 : q ≤ (a : ℚ)) :
    -a ≤ truncTowardZero q ∧ truncTowardZero q ≤ a := by
  unfold truncTowardZero
  split
  · constructor
    · calc -a ≤ 0 := by omega
        _ ≤ ⌊q⌋ := Int.floor_nonneg.mpr (by assumption)
    · calc ⌊q⌋ ≤ ⌊(a : ℚ)⌋ := Int.floor_le_floor h2
        _ = a := Int.floor_intCast a
  · constructor
    · calc -a = ⌈(-(a : ℚ) : ℚ)⌉ := by rw [← Int.cast_neg, Int.ceil_intCast]
        _ ≤ ⌈q⌉ := Int.ceil_le_ceil h1
    · have hq : q ≤ 0 := le_of_not_le (by assumption)
      calc ⌈q⌉ ≤ ⌈(0 : ℚ)⌉ := Int.ceil_le_ceil hq
        _ = 0 := by norm_num
        _ ≤ a := ha

/-- The quantizer stays inside `[-32767, 32767]`: the clamp bounds the
scaled value and truncation toward zero cannot leave the interval. -/
theorem quantizeI16_range (x : ℚ) :
    -32767 ≤ quantizeI16 x ∧ quantizeI16 x ≤ 32767 := by
  unfold quantizeI16
  have hc := clampUnit_mem x
  have := truncTowardZero_bounds (q := clampUnit x * 32767) (a := 32767)
    (by norm_num) (by push_cast; nlinarith [hc.1, hc.2])
    (by push_cast; nlinarith [hc.1, hc.2])
  exact_mod_cast this

theorem quantizeI16_zero : quantizeI16 0 = 0 := by
  unfold quantizeI16 clampUnit truncTowardZero
  norm_num

theorem stereoFrames_getD (s m : List ℚ) (n i : ℕ) (h : i < n) :
    (stereoFrames s m n).getD i (0, 0) =
      (quantizeI16 (leftSampleAt s i), quantizeI16 (rightSampleAt m i)) := by
  have hlen : i < (stereoFrames s m n).length := by
    rw [stereoFrames_length]; exact h
  rw [List.getD_eq_getElem _ _ hlen]
  simp [stereoFrames]

theorem rightSampleAt_nil (i : ℕ) : rightSampleAt [] i = 0 := by
  simp [rightSampleAt]

theorem wavFrames_length (a b : List ℚ) :
    (wavFrames a b).length = max a.length b.length := by
  simp [wavFrames]

theorem wavFrames_getD (a b : List ℚ) (i : ℕ) (h : i < max a.length b.length) :
    (wavFrames a b).getD i (0, 0) =
      (quantizeI16 (a.getD i 0), quantizeI16 (b.getD i 0 * (3 / 2))) := by
  have hlen : i < (wavFrames a b).length := by rw [wavFrames_length]; exact h
  rw [List.getD_eq_getElem _ _ hlen]
  simp [wavFrames]

theorem createStereoWav_length (sysData : List ℕ) (micSamples : List ℚ)
    (channels : ℕ) :
    (createStereoWav sysData micSamples channels).length =
      4 * max (downmix channels (bytesToF32 sysData)).length micSamples.length := by
  simp [createStereoWav, framesToBytes_length, wavFrames_length]

theorem writeHeader_length (sampleRate channels bits dataSize : ℕ) :
    (writeHeader sampleRate channels bits dataSize).length = 44 := by
  simp [writeHeader, u32le, u16le]

theorem bytesToF32_short : ∀ l : List ℕ, l.length < 4 → bytesToF32 l = []
  | [], _ => rfl
  | [_], _ => by simp [bytesToF32]
  | [_, _], _ => by simp [bytesToF32]
  | [_, _, _], _ => by simp [bytesToF32]
  | _ :: _ :: _ :: _ :: _, h => by
    simp only [List.length_cons] at h
    omega

/-! ### Claims -/

theorem resample_length (mono : List ℚ) (r : ℚ) :
    (resample mono r).length = resampleLen mono.length r := by
  rw [resample, List.length_map, List.length_range]

/-- C3 counterexample: a malformed (odd-length, 7-byte) input at a sane
native rate does not yield an empty result — the first complete 4-byte
sample is decoded and resampled, so one output sample is produced. -/
theorem C3_counterexample :
    systemRealtimeSamples (List.replicate 7 0) 1 16000 ≠ [] := by
  have hmono : (downmix 1 (bytesToF32 (List.replicate 7 0))).length = 1 := by
    rw [show downmix 1 (bytesToF32 (List.replicate 7 0)) =
        bytesToF32 (List.replicate 7 0) from by simp [downmix]]
    rw [bytesToF32_length]
    simp
  have hlen : (systemRealtimeSamples (List.replicate 7 0) 1 16000).length = 1 := by
    rw [systemRealtimeSamples, resample_length, hmono]
    rw [resampleLen, if_neg (by norm_num)]
    norm_num [targetRate]
  intro h
  rw [h] at hlen
  simp at hlen

/-- C3 (amended): the resampler path never fails, but malformed input is
not mapped to an empty result in general: a byte buffer is truncated to
its complete 4-byte samples (so only inputs shorter than one sample
decode to nothing), and a zero native rate yields output length 0 only
for an empty buffer, saturating to `usize::MAX` for a nonempty one. -/
theorem C3_malformed_behavior :
    (∀ (data : List ℕ) (channels rate : ℕ),
      systemRealtimeSamples data channels rate =
        systemRealtimeSamples (data.take (4 * (data.length / 4))) channels rate) ∧
    (∀ data : List ℕ, data.length < 4 → bytesToF32 data = []) ∧
    resampleLen 0 0 = 0 ∧
    (∀ n : ℕ, 0 < n → resampleLen n 0 = USIZE_MAX) := by
  refine ⟨?_, bytesToF32_short, by decide, ?_⟩
  · intro data channels rate
    simp only [systemRealtimeSamples, bytesToF32_take]
  · intro n hn
    simp [resampleLen, hn.ne']

/-- C3 witness: concrete instances of the amended behavior. -/
theorem C3_malformed_behavior_witness :
    bytesToF32 [5] = [] ∧ resampleLen 3 0 = USIZE_MAX :=
  ⟨C3_malformed_behavior.2.1 [5] (by decide),
   C3_malformed_behavior.2.2.2 3 (by decide)⟩

/-- C4 counterexample: 5 mono samples at native rate 48000 produce 1
output sample (truncation of 5/3), not `round(5 * 16000/48000) = 2` as
the claim's round-to-nearest formula predicts. -/
theorem C4_counterexample :
    (resample (List.replicate 5 (0:ℚ)) 48000).length ≠
      (round (((List.replicate 5 (0:ℚ)).length : ℚ) * (targetRate / 48000))).toNat := by
  have hfloor : ⌊((5 : ℕ) : ℚ) * (targetRate / 48000)⌋ = 1 := by
    rw [show (((5 : ℕ) : ℚ) * (targetRate / 48000)) = 5 / 3 by
      norm_num [targetRate]]
    rw [Int.floor_eq_iff]
    push_cast
    norm_num
  have hround : round (((List.replicate 5 (0:ℚ)).length : ℚ) * (targetRate / 48000)) = 2 := by
    rw [round_eq]
    rw [show (((List.replicate 5 (0:ℚ)).length : ℚ) * (targetRate / 48000) + 1 / 2) = 13 / 6 by
      norm_num [targetRate]]
    rw [Int.floor_eq_iff]
    push_cast
    norm_num
  have hlen : (resample (List.replicate 5 (0:ℚ)) 48000).length = 1 := by
    rw [resample_length, resampleLen, if_neg (by norm_num)]
    simp only [List.length_replicate]
    rw [hfloor]
    rfl
  rw [hlen, hround]
  decide

/-- C4 (amended): for every mono input and nonzero native rate the
resampler produces exactly `⌊input_len * target_rate/native_rate⌋`
output samples — the cast truncates, it does not round to nearest. -/
theorem C4_resampler_length (mono : List ℚ) (nativeRate : ℚ)
    (h : nativeRate ≠ 0) :
    (resample mono nativeRate).length =
      (⌊(mono.length : ℚ) * (targetRate / nativeRate)⌋).toNat := by
  rw [resample_length, resampleLen, if_neg h]

/-- C4 witness: 3 samples at native rate 16000 give ⌊3⌋ = 3 samples. -/
theorem C4_resampler_length_witness :
    (resample (List.replicate 3 (0:ℚ)) 16000).length =
      (⌊((List.replicate 3 (0:ℚ)).length : ℚ) * (targetRate / 16000)⌋).toNat :=
  C4_resampler_length _ _ (by norm_num)

/-- C5 counterexample: a 4-channel frame [1, 0, 0, 0] is not averaged to
[1/4] as the claim's all-channel average demands; the code passes any
channel count other than 2 through unchanged. -/
theorem C5_counterexample :
    downmix 4 [(1:ℚ), 0, 0, 0] ≠ downmixSpecAvg 4 [(1:ℚ), 0, 0, 0] := by
  intro h
  have hlen := congrArg List.length h
  simp [downmix, downmixSpecAvg] at hlen

/-- C5 (amended): only a 2-channel input is down-mixed, by averaging each
consecutive pair of samples (a trailing unpaired sample is averaged with
0); every other channel count, including counts > 2, passes through
unchanged. -/
theorem C5_downmix_only_stereo :
    (∀ (channels : ℕ) (xs : List ℚ), channels ≠ 2 → downmix channels xs = xs) ∧
    (∀ xs : List ℚ, (downmix 2 xs).length = (xs.length + 1) / 2) ∧
    (∀ (xs : List ℚ) (i : ℕ),
      (downmix 2 xs).getD i 0 = (xs.getD (2 * i) 0 + xs.getD (2 * i + 1) 0) / 2) := by
  refine ⟨?_, ?_, ?_⟩
  · intro channels xs h
    simp [downmix, h]
  · intro xs
    exact pairAvg_length xs
  · intro xs i
    exact pairAvg_getD xs i

/-- C5 witness: the 4-channel buffer passes through unchanged. -/
theorem C5_downmix_only_stereo_witness :
    downmix 4 [(1:ℚ), 0, 0, 0] = [(1:ℚ), 0, 0, 0] :=
  C5_downmix_only_stereo.1 4 _ (by decide)

/-- C6: every chunk the builder appends has byte length exactly
`frames_processed * 4`; whenever the loop runs, `samples_to_process`
equals the window `chunk_size = 1600`; and the resulting 6400-byte
invariant on the queue is preserved by the chunk builder, by draining
the queue, by session start and by session stop. -/
theorem C6_chunk_size_invariant :
    (∀ (s m : List ℚ) (n : ℕ), (stereoChunkBytes s m n).length = n * 4) ∧
    (∀ a b : ℕ, chunkSize ≤ a ∨ chunkSize ≤ b →
      min chunkSize (max a b) = chunkSize) ∧
    (∀ (s m : List ℚ) (q : List (List ℕ)), chunkInv q →
      chunkInv (buildStereoChunks s m q).2.2) ∧
    (∀ q : List (List ℕ), chunkInv (getAudioChunks q).2) ∧
    (∀ st : EngineState, chunkInv (startCaptureEngine st).chunkQueue) ∧
    (∀ st : EngineState, chunkInv st.chunkQueue →
      chunkInv (stopCapture st).1.chunkQueue) := by
  refine ⟨?_, ?_, ?_, ?_, ?_, ?_⟩
  · intro s m n
    rw [stereoChunkBytes_length]
    ring
  · intro a b h
    exact min_chunk_window h
  · intro s m q hq
    rw [buildStereoChunks_eq_loop]
    exact buildLoop_chunkInv s m q hq
  · intro q c hc
    simp [getAudioChunks] at hc
  · intro st c hc
    simp [startCaptureEngine] at hc
  · intro st hq
    have hqq : (stopCapture st).1.chunkQueue =
        (buildStereoChunks st.systemBuffer st.micBuffer st.chunkQueue).2.2 := by
      simp [stopCapture]
    rw [hqq, buildStereoChunks_eq_loop]
    exact buildLoop_chunkInv _ _ _ hq

/-- C6 witness: the invariant established from an empty queue after one
full window, and a chunk's byte length at a concrete frame count. -/
theorem C6_chunk_size_invariant_witness :
    chunkInv (buildStereoChunks (List.replicate 1600 (0:ℚ)) [] []).2.2 ∧
    (stereoChunkBytes [] [] 2).length = 2 * 4 :=
  ⟨C6_chunk_size_invariant.2.2.1 _ _ _ (by intro c hc; simp at hc),
   C6_chunk_size_invariant.1 [] [] 2⟩

/-- C2: with 3200 queued system samples and 1600 mic samples the builder
yields exactly two chunks in order: the first drawn from both buffers,
the second drawn from the remaining system samples with the right
channel quantized from zero. -/
theorem C2_two_chunks (s m : List ℚ) (q : List (List ℕ))
    (hs : s.length = 3200) (hm : m.length = 1600) :
    buildStereoChunks s m q =
      ([], [],
        q ++ [stereoChunkBytes s m chunkSize,
              stereoChunkBytes (s.drop chunkSize) [] chunkSize]) ∧
    (∀ i, i < chunkSize →
      (stereoFrames s m chunkSize).getD i (0, 0) =
        (quantizeI16 (s.getD i 0), quantizeI16 (m.getD i 0 * (3 / 2)))) ∧
    (∀ i, i < chunkSize →
      ((stereoFrames (s.drop chunkSize) [] chunkSize).getD i (0, 0)).2 = 0) := by
  have hc : chunkSize = 1600 := rfl
  refine ⟨?_, ?_, ?_⟩
  · rw [buildStereoChunks_eq_loop]
    have h1 : chunkSize ≤ s.length ∨ chunkSize ≤ m.length := Or.inl (by omega)
    rw [buildLoop_step s m q h1, min_chunk_window h1]
    have hds : drainBuf chunkSize s = s.drop chunkSize := by
      rw [drainBuf, if_pos (by omega)]
    have hdm : drainBuf chunkSize m = [] := by
      rw [drainBuf, if_pos (by omega)]
      exact List.drop_eq_nil_of_le (by omega)
    rw [hds, hdm]
    have hlen2 : (s.drop chunkSize).length = 1600 := by
      rw [List.length_drop]
      omega
    have h2 : chunkSize ≤ (s.drop chunkSize).length ∨ chunkSize ≤ ([] : List ℚ).length :=
      Or.inl (by omega)
    rw [buildLoop_step _ _ _ h2, min_chunk_window h2]
    have hds2 : drainBuf chunkSize (s.drop chunkSize) = [] := by
      rw [drainBuf, if_pos (by omega)]
      exact List.drop_eq_nil_of_le (by omega)
    have hdm2 : drainBuf chunkSize ([] : List ℚ) = [] := by
      rw [drainBuf]
      simp
    rw [hds2, hdm2, buildLoop_exit _ _ _ (by rw [hc]; simp)]
    simp
  · intro i hi
    rw [stereoFrames_getD s m chunkSize i hi]
    rw [leftSampleAt, if_pos (by omega), rightSampleAt, if_pos (by omega)]
  · intro i hi
    rw [stereoFrames_getD _ _ chunkSize i hi]
    rw [rightSampleAt_nil, quantizeI16_zero]

/-- C2 witness: the two-chunk result at a concrete pair of buffers. -/
theorem C2_two_chunks_witness :
    buildStereoChunks (List.replicate 3200 (0:ℚ)) (List.replicate 1600 (0:ℚ)) [] =
      ([], [],
        [stereoChunkBytes (List.replicate 3200 (0:ℚ)) (List.replicate 1600 (0:ℚ)) chunkSize,
         stereoChunkBytes ((List.replicate 3200 (0:ℚ)).drop chunkSize) [] chunkSize]) := by
  have h := (C2_two_chunks (List.replicate 3200 (0:ℚ)) (List.replicate 1600 (0:ℚ)) []
    (by rw [List.length_replicate]) (by rw [List.length_replicate])).1
  rw [List.nil_append] at h
  exact h

/-- C1 counterexample: a session stopped with a 100-sample remainder in
the system realtime buffer (and an empty mic buffer) queues no final
chunk at all — the remainder is not flushed. -/
theorem C1_counterexample :
    remnantState.systemBuffer ≠ [] ∧ (stopCapture remnantState).1.chunkQueue = [] := by
  constructor
  · show List.replicate 100 (0:ℚ) ≠ []
    intro h
    have hl := congrArg List.length h
    simp only [List.length_replicate, List.length_nil] at hl
    omega
  · have hb : buildStereoChunks (List.replicate 100 (0:ℚ)) [] [] =
        (List.replicate 100 (0:ℚ), [], []) := by
      rw [buildStereoChunks_eq_loop, buildLoop_exit]
      simp only [List.length_replicate, List.length_nil, chunkSize]
      omega
    have hq : (stopCapture remnantState).1.chunkQueue =
        (buildStereoChunks remnantState.systemBuffer remnantState.micBuffer
          remnantState.chunkQueue).2.2 := by
      simp [stopCapture]
    rw [hq]
    show (buildStereoChunks (List.replicate 100 (0:ℚ)) [] []).2.2 = []
    rw [hb]

/-- C1 (amended): `stop()` forces one final chunk-builder pass after
teardown; the pass flushes every remaining full 1600-sample window into
queued chunks and leaves both realtime buffers holding fewer than 1600
samples, but a remainder shorter than one window in both buffers is not
flushed into any final chunk — it is discarded with the buffers. -/
theorem C1_stop_final_pass (st : EngineState) :
    (stopCapture st).1.chunkQueue =
      (buildStereoChunks st.systemBuffer st.micBuffer st.chunkQueue).2.2 ∧
    (stopCapture st).1.systemBuffer.length < chunkSize ∧
    (stopCapture st).1.micBuffer.length < chunkSize ∧
    (st.systemBuffer.length < chunkSize → st.micBuffer.length < chunkSize →
      (stopCapture st).1.chunkQueue = st.chunkQueue) := by
  have hq : (stopCapture st).1.chunkQueue =
      (buildStereoChunks st.systemBuffer st.micBuffer st.chunkQueue).2.2 := by
    simp [stopCapture]
  have hsys : (stopCapture st).1.systemBuffer =
      (buildStereoChunks st.systemBuffer st.micBuffer st.chunkQueue).1 := by
    simp [stopCapture]
  have hmic : (stopCapture st).1.micBuffer =
      (buildStereoChunks st.systemBuffer st.micBuffer st.chunkQueue).2.1 := by
    simp [stopCapture]
  refine ⟨hq, ?_, ?_, ?_⟩
  · rw [hsys, buildStereoChunks_eq_loop]
    exact (buildLoop_post _ _ _).1
  · rw [hmic, buildStereoChunks_eq_loop]
    exact (buildLoop_post _ _ _).2
  · intro h1 h2
    rw [hq, buildStereoChunks_eq_loop,
      buildLoop_exit _ _ _ (by rw [not_or]; exact ⟨not_le.mpr h1, not_le.mpr h2⟩)]

/-- C1 witness: the final pass on the remainder state leaves the queue
exactly as it was. -/
theorem C1_stop_final_pass_witness :
    (stopCapture remnantState).1.chunkQueue = remnantState.chunkQueue :=
  (C1_stop_final_pass remnantState).2.2.2
    (by simp [remnantState, chunkSize]) (by simp [remnantState, chunkSize])

/-- C7: the archival encoder on `4N` bytes of mono (1-channel) system
data and no mic data emits a 44-byte header followed by `N` interleaved
stereo frames: total length `44 + N*2*2`, format tag 1 (PCM), channel
count 2, sample rate `R`, byte rate `R*4`, block alignment 4, bit depth
16, data size `N*4`, and a zero right channel in every frame. -/
theorem C7_archival_encoder (sysData : List ℕ) (R N : ℕ)
    (h : sysData.length = 4 * N) :
    (wavFileBytes (createStereoWav sysData [] 1) R).length = 44 + N * 2 * 2 ∧
    wavFileBytes (createStereoWav sysData [] 1) R =
      [82, 73, 70, 70] ++ u32le (36 + N * 4) ++ [87, 65, 86, 69] ++
      [102, 109, 116, 32] ++ u32le 16 ++ u16le 1 ++ u16le 2 ++ u32le R ++
      u32le (R * 4) ++ u16le 4 ++ u16le 16 ++ [100, 97, 116, 97] ++
      u32le (N * 4) ++ createStereoWav sysData [] 1 ∧
    (∀ i : ℕ, ((wavFrames (downmix 1 (bytesToF32 sysData)) []).getD i (0, 0)).2 = 0) := by
  have hdm : downmix 1 (bytesToF32 sysData) = bytesToF32 sysData := by
    simp [downmix]
  have hpcm : (createStereoWav sysData [] 1).length = N * 4 := by
    rw [createStereoWav_length, hdm, bytesToF32_length, h]
    simp only [List.length_nil, Nat.max_zero]
    omega
  refine ⟨?_, ?_, ?_⟩
  · rw [wavFileBytes, List.length_append, writeHeader_length, hpcm]
    omega
  · have e1 : R * 2 * 16 / 8 = R * 4 := by omega
    have e2 : 2 * 16 / 8 = 4 := by norm_num
    simp only [wavFileBytes, writeHeader, hpcm, e1, e2]
  · intro i
    by_cases hi : i < max (downmix 1 (bytesToF32 sysData)).length ([] : List ℚ).length
    · rw [wavFrames_getD _ _ _ hi]
      simp [quantizeI16_zero]
    · rw [List.getD_eq_default _ _ (by rw [wavFrames_length]; omega)]

/-- C7 witness: 8 bytes of mono data (N = 2) at rate 44100 give a
44 + 8 byte container file. -/
theorem C7_archival_encoder_witness :
    (wavFileBytes (createStereoWav (List.replicate 8 0) [] 1) 44100).length =
      44 + 2 * 2 * 2 :=
  (C7_archival_encoder (List.replicate 8 0) 44100 2 (by rw [List.length_replicate])).1

theorem onSystemAudio_not_capturing (st : EngineState) (data : List ℕ)
    (rate channels : ℕ) (h : st.capturing = false) :
    onSystemAudio st data rate channels =
      if data.length = 0 then st
      else { st with sampleRate := rate, channels := channels,
                     level := calcLevel data } := by
  rw [onSystemAudio]
  split
  · rfl
  · rw [if_neg]
    simp [h]

/-- C9: when the running flag is down, a delivered system or microphone
callback leaves both archival buffers and both realtime buffers exactly
as they were (the system callback still refreshes the level and format
metadata); together with `start()` clearing all four buffers, archival
data can only come from inside a running session. -/
theorem C9_callbacks_noop_when_stopped (st : EngineState) (data : List ℕ)
    (rate channels : ℕ) (samples : List ℚ) (micRate : ℚ)
    (h : st.capturing = false) :
    (onSystemAudio st data rate channels).systemData = st.systemData ∧
    (onSystemAudio st data rate channels).micData = st.micData ∧
    (onSystemAudio st data rate channels).systemBuffer = st.systemBuffer ∧
    (onSystemAudio st data rate channels).micBuffer = st.micBuffer ∧
    onMicAudio st samples micRate = st ∧
    (startCaptureEngine st).systemData = [] ∧
    (startCaptureEngine st).micData = [] ∧
    (startCaptureEngine st).systemBuffer = [] ∧
    (startCaptureEngine st).micBuffer = [] := by
  have hmic : onMicAudio st samples micRate = st := by
    rw [onMicAudio, if_pos]
    simp [h]
  rw [onSystemAudio_not_capturing st data rate channels h]
  by_cases hd : data.length = 0
  · rw [if_pos hd]
    exact ⟨rfl, rfl, rfl, rfl, hmic, rfl, rfl, rfl, rfl⟩
  · rw [if_neg hd]
    exact ⟨rfl, rfl, rfl, rfl, hmic, rfl, rfl, rfl, rfl⟩

/-- C9 witness: a concrete stopped state with nonempty buffers is left
untouched by both callbacks. -/
theorem C9_callbacks_noop_when_stopped_witness :
    (onSystemAudio stoppedState [9, 9, 9, 9] 48000 2).systemData = stoppedState.systemData ∧
    onMicAudio stoppedState [1, 2] 48000 = stoppedState :=
  ⟨(C9_callbacks_noop_when_stopped stoppedState [9, 9, 9, 9] 48000 2 [1, 2] 48000 rfl).1,
   (C9_callbacks_noop_when_stopped stoppedState [9, 9, 9, 9] 48000 2 [1, 2] 48000 rfl).2.2.2.2.1⟩

/-- C8: `stop()` with no active session fails with the NotCapturing-kind
error and leaves the engine state absent; `start()` while a session is
running fails with the already-capturing error and leaves the stored
session unchanged. -/
theorem C8_lifecycle_errors (st : Option AudioCaptureState)
    (s : AudioCaptureState) (backendOk : Bool) (path : String)
    (hs : st = some s) (hc : s.isCapturing = true) :
    startAudioCapture st backendOk path =
      (Except.error CaptureError.alreadyCapturing, st) ∧
    stopAudioCapture none = (Except.error CaptureError.notCapturing, none) := by
  subst hs
  constructor
  · simp [startAudioCapture, hc]
  · rfl

/-- C8 witness: concrete running session and missing session. -/
theorem C8_lifecycle_errors_witness :
    startAudioCapture (some { isCapturing := true, outputPath := "a.wav" }) true "b.wav" =
      (Except.error CaptureError.alreadyCapturing,
        some { isCapturing := true, outputPath := "a.wav" }) ∧
    stopAudioCapture none = (Except.error CaptureError.notCapturing, none) :=
  C8_lifecycle_errors _ _ true "b.wav" rfl rfl

/-- C10: every quantized 16-bit sample — from the streaming chunk builder
and from the archival encoder alike — lies in `[-32767, 32767]`; the
value `-32768` is never produced, because the float sample is clamped to
`[-1, 1]` before scaling by 32767 and truncation cannot escape the
scaled range. -/
theorem C10_quantized_sample_range :
    (∀ x : ℚ, -32767 ≤ quantizeI16 x ∧ quantizeI16 x ≤ 32767 ∧
      quantizeI16 x ≠ -32768) ∧
    (∀ (s m : List ℚ) (n i : ℕ),
      -32767 ≤ ((stereoFrames s m n).getD i (0, 0)).1 ∧
      ((stereoFrames s m n).getD i (0, 0)).1 ≤ 32767 ∧
      -32767 ≤ ((stereoFrames s m n).getD i (0, 0)).2 ∧
      ((stereoFrames s m n).getD i (0, 0)).2 ≤ 32767) ∧
    (∀ (a b : List ℚ) (i : ℕ),
      -32767 ≤ ((wavFrames a b).getD i (0, 0)).1 ∧
      ((wavFrames a b).getD i (0, 0)).1 ≤ 32767 ∧
      -32767 ≤ ((wavFrames a b).getD i (0, 0)).2 ∧
      ((wavFrames a b).getD i (0, 0)).2 ≤ 32767) := by
  refine ⟨?_, ?_, ?_⟩
  · intro x
    have hr := quantizeI16_range x
    exact ⟨hr.1, hr.2, by omega⟩
  · intro s m n i
    by_cases hi : i < n
    · rw [stereoFrames_getD s m n i hi]
      exact ⟨(quantizeI16_range _).1, (quantizeI16_range _).2,
        (quantizeI16_range _).1, (quantizeI16_range _).2⟩
    · rw [List.getD_eq_default _ _ (by rw [stereoFrames_length]; omega)]
      norm_num
  · intro a b i
    by_cases hi : i < max a.length b.length
    · rw [wavFrames_getD a b i hi]
      exact ⟨(quantizeI16_range _).1, (quantizeI16_range _).2,
        (quantizeI16_range _).1, (quantizeI16_range _).2⟩
    · rw [List.getD_eq_default _ _ (by rw [wavFrames_length]; omega)]
      norm_num

end IceCubes
